import Mathlib

/-!
Verification of the conditional-escrow core.

Shallow embedding of the three components of the PyNIKE/eth_conditional core:

* `Escrow` — the on-chain ledger `EscrowManagerMainnetDemo` (Solidity), its
  agreement state machine, fee accounting and pluggable condition dispatch;
* `EscrowExecReceiver` — the authorized-write receiver contract;
* `ApiServer` — the attestation store (`api/server.ts`): canonical completion
  message, record upsert, dispute marking, and read-time re-verification;
* `Bridge` — the settlement bridge (`eth-condition/main.ts`) per-signal handler.

Addresses are naturals (`0` is the null address), uint256 arithmetic is `Nat`
with explicit `2 ^ 256` bounds where Solidity 0.8 checked arithmetic can
revert, reverts and HTTP 400s are `Option`/`Except` failures, and external
effects (ERC-20 token, signature recovery, RPC reads) are explicit state or
oracle parameters.
-/

/-- Solidity 0.8 checked `uint256` arithmetic reverts at this bound. -/
def twoPow256 : Nat := 2 ^ 256

namespace Escrow

/-- Lifecycle states of an agreement (`Types.State` in Types.sol). -/
inductive State where
  | None
  | Created
  | Funded
  | Executing
  | Completed
  | Refunded
  | Disputed
deriving DecidableEq, Repr

/-- Struct `Types.Condition`: evaluator id, optional target, opaque data bytes. -/
structure Condition where
  conditionType : Nat
  target : Nat
  data : List Nat
deriving DecidableEq, Repr

/-- Struct `Types.Agreement` as stored on-chain. -/
structure Agreement where
  payer : Nat
  payee : Nat
  token : Nat
  amount : Nat
  createdAt : Nat
  deadline : Nat
  condition : Condition
  state : State
deriving DecidableEq, Repr

/-- The zero-initialized agreement a Solidity mapping returns for an
unallocated id (every field zero, state `None`). -/
def Agreement.zero : Agreement :=
  { payer := 0, payee := 0, token := 0, amount := 0, createdAt := 0,
    deadline := 0, condition := { conditionType := 0, target := 0, data := [] },
    state := State.None }

/-- Events emitted by `EscrowManagerMainnetDemo` (indexed topics dropped,
payload fields kept). -/
inductive Event where
  | AgreementCreated (id payer payee amount deadline conditionType target : Nat)
  | Deposited (id payer amount fee : Nat)
  | Executing (id : Nat)
  | Completed (id : Nat)
  | ExecutionSkipped (id : Nat) (reason : String)
  | Refunded (id : Nat)
  | ConditionImplSet (conditionType impl : Nat)
  | FeeConfigSet (feeBps recipient : Nat)
  | EscrowSignal (id : Nat)
deriving DecidableEq, Repr

/-- Combined state: the `EscrowManagerMainnetDemo` storage together with the
WETH token's balances/allowances (the escrow's only external state).
`self` is `address(this)` of the escrow contract. -/
structure Ledger where
  self : Nat
  owner : Nat
  weth : Nat
  protocolFeeBps : Nat
  feeRecipient : Nat
  conditionImpl : Nat → Nat
  agreements : Nat → Agreement
  nextId : Nat
  balances : Nat → Nat
  allowance : Nat → Nat → Nat

/-- ERC-20 `transfer` semantics used by `weth.safeTransfer`: fails (reverts)
iff the source balance is insufficient. -/
def transfer (s : Ledger) (src dst amt : Nat) : Option Ledger :=
  if amt ≤ s.balances src then
    let b1 := Function.update s.balances src (s.balances src - amt)
    some { s with balances := Function.update b1 dst (b1 dst + amt) }
  else none

/-- ERC-20 `transferFrom` semantics used by `weth.safeTransferFrom`:
additionally requires and consumes allowance of `src` towards `spender`. -/
def transferFrom (s : Ledger) (src spender dst amt : Nat) : Option Ledger :=
  if amt ≤ s.allowance src spender then
    (transfer s src dst amt).map fun s1 =>
      { s1 with
        allowance := fun o sp =>
          if o = src ∧ sp = spender then s.allowance src spender - amt
          else s.allowance o sp }
  else none

/-- Operation `setFeeConfig(feeBps, recipient)`: onlyOwner, `feeBps ≤ 500`,
nonzero recipient. -/
def setFeeConfig (s : Ledger) (sender feeBps recipient : Nat) :
    Option (Ledger × List Event) :=
  if sender ≠ s.owner then none
  else if ¬ feeBps ≤ 500 then none
  else if recipient = 0 then none
  else some ({ s with protocolFeeBps := feeBps, feeRecipient := recipient },
    [Event.FeeConfigSet feeBps recipient])

/-- Operation `setConditionImpl(conditionType, impl)`: onlyOwner, rejects the zero
address, then overwrites the registry entry. -/
def setConditionImpl (s : Ledger) (sender conditionType impl : Nat) :
    Option (Ledger × List Event) :=
  if sender ≠ s.owner then none
  else if impl = 0 then none
  else some ({ s with conditionImpl := Function.update s.conditionImpl conditionType impl },
    [Event.ConditionImplSet conditionType impl])

/-- Operation `createAgreement(payee, wethAmount, deadline, condition)`. Requires, in
source order: nonzero payee, nonzero amount, `deadline > block.timestamp`,
nonempty condition data, registered evaluator; then allocates `nextId`
(checked increment) and stores a `Created` agreement. Returns the id and the
emitted events. -/
def createAgreement (s : Ledger) (sender now payee amount deadline : Nat)
    (condition : Condition) : Option (Ledger × Nat × List Event) :=
  if payee = 0 then none
  else if amount = 0 then none
  else if ¬ now < deadline then none
  else if condition.data = [] then none
  else if s.conditionImpl condition.conditionType = 0 then none
  else if ¬ s.nextId + 1 < twoPow256 then none
  else
    let id := s.nextId
    let a : Agreement :=
      { payer := sender, payee := payee, token := s.weth, amount := amount,
        createdAt := now, deadline := deadline, condition := condition,
        state := State.Created }
    some ({ s with agreements := Function.update s.agreements id a, nextId := id + 1 },
      id,
      [Event.AgreementCreated id sender payee amount deadline
        condition.conditionType condition.target,
       Event.EscrowSignal id])

/-- Operation `deposit(id)`: requires state `Created` then `msg.sender == payer`
(source order); computes `fee = amount * protocolFeeBps / 10000` with checked
multiplication and addition, pulls `amount + fee` from the payer, forwards
`fee` to the fee recipient when positive, and marks the agreement `Funded`. -/
def deposit (s : Ledger) (sender id : Nat) : Option (Ledger × List Event) :=
  let a := s.agreements id
  if a.state ≠ State.Created then none
  else if sender ≠ a.payer then none
  else if ¬ a.amount * s.protocolFeeBps < twoPow256 then none
  else
    let fee := a.amount * s.protocolFeeBps / 10000
    if ¬ a.amount + fee < twoPow256 then none
    else
      match transferFrom s sender s.self s.self (a.amount + fee) with
      | none => none
      | some s1 =>
        match (if 0 < fee then transfer s1 s1.self s1.feeRecipient fee else some s1) with
        | none => none
        | some s2 =>
          some ({ s2 with
              agreements := Function.update s2.agreements id { a with state := State.Funded } },
            [Event.Deposited id sender a.amount fee, Event.EscrowSignal id])

/-- Operation `executeIfSatisfied(id)`: the non-reverting satisfaction check. Skips
(with an `ExecutionSkipped` reason, returning `bytes32(0)` modelled as `0`)
when the state is not `Funded`, the deadline has passed, the evaluator is
unregistered, or the evaluator says unsatisfied; otherwise transitions
`Funded → Executing`, pays `amount` to the payee, and finishes `Completed`.
The external `IEscrowCondition.isSatisfied` staticcall is the pure oracle
`isSatisfied : evaluator → target → data → Bool` (a view function). `none`
models a revert of the whole call (token transfer failure). -/
def executeIfSatisfied (s : Ledger) (now id : Nat)
    (isSatisfied : Nat → Nat → List Nat → Bool) :
    Option (Ledger × List Event × Nat) :=
  let a := s.agreements id
  if a.state ≠ State.Funded then
    some (s, [Event.ExecutionSkipped id "state!=Funded"], 0)
  else if a.deadline < now then
    some (s, [Event.ExecutionSkipped id "deadline passed"], 0)
  else
    let cond := s.conditionImpl a.condition.conditionType
    if cond = 0 then
      some (s, [Event.ExecutionSkipped id "condition missing"], 0)
    else if ¬ isSatisfied cond a.condition.target a.condition.data then
      some (s, [Event.ExecutionSkipped id "condition not satisfied"], 0)
    else
      let s1 := { s with agreements := Function.update s.agreements id { a with state := State.Executing } }
      match transfer s1 s1.self a.payee a.amount with
      | none => none
      | some s2 =>
        some ({ s2 with
            agreements := Function.update s2.agreements id { a with state := State.Completed } },
          [Event.Executing id, Event.Completed id], 0)

/-- Operation `refund(id)`: requires state `Funded` and `block.timestamp > deadline`;
marks the agreement `Refunded` and returns `amount` (no fee) to the payer. -/
def refund (s : Ledger) (now id : Nat) : Option (Ledger × List Event) :=
  let a := s.agreements id
  if a.state ≠ State.Funded then none
  else if ¬ a.deadline < now then none
  else
    let s1 := { s with agreements := Function.update s.agreements id { a with state := State.Refunded } }
    (transfer s1 s1.self a.payer a.amount).map fun s2 => (s2, [Event.Refunded id])

/-- One external transaction against the ledger. -/
inductive Op where
  | setFee (sender feeBps recipient : Nat)
  | setCond (sender conditionType impl : Nat)
  | create (sender now payee amount deadline : Nat) (condition : Condition)
  | dep (sender id : Nat)
  | exec (now id : Nat) (isSatisfied : Nat → Nat → List Nat → Bool)
  | ref (now id : Nat)

/-- Transaction semantics: a reverted operation leaves the state unchanged. -/
def applyOp (s : Ledger) (op : Op) : Ledger :=
  match op with
  | Op.setFee sender feeBps recipient =>
    match setFeeConfig s sender feeBps recipient with
    | some (s', _) => s'
    | none => s
  | Op.setCond sender conditionType impl =>
    match setConditionImpl s sender conditionType impl with
    | some (s', _) => s'
    | none => s
  | Op.create sender now payee amount deadline condition =>
    match createAgreement s sender now payee amount deadline condition with
    | some (s', _, _) => s'
    | none => s
  | Op.dep sender id =>
    match deposit s sender id with
    | some (s', _) => s'
    | none => s
  | Op.exec now id isSatisfied =>
    match executeIfSatisfied s now id isSatisfied with
    | some (s', _, _) => s'
    | none => s
  | Op.ref now id =>
    match refund s now id with
    | some (s', _) => s'
    | none => s

/-- Run a sequence of transactions. -/
def runOps (s : Ledger) (ops : List Op) : Ledger :=
  ops.foldl applyOp s

end Escrow

namespace EscrowExecReceiver

/-- Revert reasons of `EscrowExecReceiver._handleReport`. -/
inductive RcvError where
  | OnlyForwarder (caller : Nat)
  | BadReport
deriving DecidableEq, Repr

/-- Solidity `abi.decode(report, (uint256))`: the first 32 bytes, big-endian. Report
bytes are naturals taken mod 256. -/
def decodeUint256 (report : List Nat) : Nat :=
  (report.take 32).foldl (fun acc b => acc * 256 + b % 256) 0

/-- Entry point `_handleReport(report)` of `EscrowExecReceiver`: reverts unless the caller
is the fixed `forwarder`; reverts on a report shorter than 32 bytes; otherwise
decodes the agreement id and performs the calls into the Ledger. The returned
list is the sequence of `executeIfSatisfied` arguments (exactly one call). -/
def handleReport (forwarder sender : Nat) (report : List Nat) :
    Except RcvError (List Nat) :=
  if sender ≠ forwarder then Except.error (RcvError.OnlyForwarder sender)
  else if report.length < 32 then Except.error RcvError.BadReport
  else Except.ok [decodeUint256 report]

end EscrowExecReceiver

namespace ApiServer

/-- Task status values of the attestation store. -/
inductive TaskStatus where
  | pending
  | completed
  | disputed
deriving DecidableEq, Repr

/-- JS `String.prototype.toLowerCase` on the ASCII strings this API handles. -/
def jsToLower (s : String) : String := String.mk (s.data.map Char.toLower)

/-- One hex digit, `[0-9a-fA-F]`. -/
def isHexChar (c : Char) : Bool :=
  c.isDigit || (97 ≤ c.toNat && c.toNat ≤ 102) || (65 ≤ c.toNat && c.toNat ≤ 70)

/-- Validator `isAddress`: `/^0x[0-9a-fA-F]{40}$/`. -/
def isAddress (s : String) : Bool :=
  s.length = 42 && s.take 2 == "0x" && (s.drop 2).data.all isHexChar

/-- Validator `isTxHash`: `/^0x[0-9a-fA-F]{64}$/`. -/
def isTxHash (s : String) : Bool :=
  s.length = 66 && s.take 2 == "0x" && (s.drop 2).data.all isHexChar

/-- Validator `isHex`: `/^0x[0-9a-fA-F]*$/`. -/
def isHex (s : String) : Bool :=
  s.take 2 == "0x" && (s.drop 2).data.all isHexChar

/-- Coercion `toBigIntString` on a string body field: accepts decimal digit strings
only (`/^\d+$/`). -/
def isDigits (s : String) : Bool :=
  s ≠ "" && s.data.all Char.isDigit

/-- JS `BigInt(string)` on the value space this API stores: the empty string
is `0n`, a decimal digit string parses, anything else throws (`none`). -/
def jsBigInt (s : String) : Option Nat :=
  if s = "" then some 0
  else if s.data.all Char.isDigit then
    some (s.data.foldl (fun n c => n * 10 + (c.toNat - 48)) 0)
  else none

/-- Function `buildCompletionMessage` of `api/server.ts`: the canonical completion
message the store verifies signatures against — eight pipe-joined segments
with `target` and `txHash` lowercased. -/
def buildCompletionMessage (chainId agreementId : Nat)
    (target key value txHash : String) (completedAt : Nat) : String :=
  String.intercalate "|"
    ["JiffyEscrowComplete",
     "chainId=" ++ toString chainId,
     "agreementId=" ++ toString agreementId,
     "target=" ++ jsToLower target,
     "key=" ++ key,
     "value=" ++ value,
     "txHash=" ++ jsToLower txHash,
     "completedAt=" ++ toString completedAt]

/-- A stored task row (the `tasks` table columns; the key `(chain_id,
agreement_id)` lives in the `Db` map). Optional columns are nullable. -/
structure TaskRecord where
  status : TaskStatus
  worker : Option String
  txHash : Option String
  completedAt : Option Nat
  signature : Option String
  target : Option String
  key : Option String
  value : Option String
deriving DecidableEq, Repr

/-- The task table, keyed by `(chainId, agreementId)`. -/
def Db : Type := Nat × Nat → Option TaskRecord

/-- JS truthiness of an optional string column (`undefined` and `""` are
falsy). -/
def truthyStr : Option String → Bool
  | none => false
  | some s => s ≠ ""

/-- JS truthiness of an optional numeric column (`undefined` and `0` are
falsy). -/
def truthyNat : Option Nat → Bool
  | none => false
  | some n => n ≠ 0

/-- The required-field presence check of the GET handler:
`!rec.worker || !rec.txHash || !rec.completedAt || !rec.signature ||
!rec.target || rec.key == null || rec.value == null` (negated). -/
def hasRequiredFields (rec : TaskRecord) : Bool :=
  truthyStr rec.worker && truthyStr rec.txHash && truthyNat rec.completedAt &&
  truthyStr rec.signature && truthyStr rec.target &&
  rec.key.isSome && rec.value.isSome

/-- Helper `verifySetConfigOnchain`: mainnet only (`chainId === 1`), target must be
an address, `BigInt` parses key and value (a parse throw propagates as
`none`), then compares the live `getConfig(key)` read with the claimed value.
`readContract target k` is the RPC oracle; `none` is an RPC failure. -/
def verifySetConfigOnchain (readContract : String → Nat → Option Nat)
    (chainId : Nat) (target key value : String) : Option Bool :=
  if chainId ≠ 1 then some false
  else if ¬ isAddress target then some false
  else
    match jsBigInt key, jsBigInt value with
    | some k, some v => (readContract target k).map fun current => current == v
    | _, _ => none

/-- Route `GET /tasks/:chainId/:agreementId` (`readStatus`). Validates `chainId`
(an `agreementId < 0` cannot occur for a natural). If no row exists, answers
a synthetic `pending`. A `disputed` row is returned as-is. A row missing a
required field is reported `pending`. Otherwise the canonical message is
rebuilt and the worker's signature checked via the `verifySig` oracle
(worker, message, signature; `none` is a thrown error), then the on-chain
state is compared; any failure yields `pending`; only double success yields
`completed`, cached back into the table when the stored flag differs. -/
def readStatus (db : Db) (chainId agreementId : Nat)
    (verifySig : String → String → String → Option Bool)
    (readContract : String → Nat → Option Nat) :
    Except String (TaskStatus × Db) :=
  if chainId = 0 then Except.error "bad chainId"
  else
    match db (chainId, agreementId) with
    | none => Except.ok (TaskStatus.pending, db)
    | some rec =>
      if rec.status = TaskStatus.disputed then Except.ok (TaskStatus.disputed, db)
      else if ¬ hasRequiredFields rec then Except.ok (TaskStatus.pending, db)
      else
        let msg := buildCompletionMessage chainId agreementId
          (rec.target.getD "") (rec.key.getD "") (rec.value.getD "")
          (rec.txHash.getD "") (rec.completedAt.getD 0)
        match verifySig (rec.worker.getD "") msg (rec.signature.getD "") with
        | none => Except.ok (TaskStatus.pending, db)
        | some false => Except.ok (TaskStatus.pending, db)
        | some true =>
          match verifySetConfigOnchain readContract chainId
              (rec.target.getD "") (rec.key.getD "") (rec.value.getD "") with
          | none => Except.ok (TaskStatus.pending, db)
          | some false => Except.ok (TaskStatus.pending, db)
          | some true =>
            let db' :=
              if rec.status ≠ TaskStatus.completed then
                Function.update db (chainId, agreementId)
                  (some { rec with status := TaskStatus.completed })
              else db
            Except.ok (TaskStatus.completed, db')

/-- Body of `POST /tasks/complete`, after the JS `Number`/string coercions
(`key`/`value` kept as raw strings, validated by `toBigIntString`). -/
structure CompleteBody where
  chainId : Nat
  agreementId : Nat
  worker : String
  txHash : String
  completedAt : Nat
  signature : String
  target : String
  key : String
  value : String
deriving DecidableEq, Repr

/-- Route `POST /tasks/complete` (`recordCompletion`): format-validates every field
(in source order; `agreementId < 0` cannot occur for a natural), lowercases
the hex fields, and upserts the row with status `'pending'` — the upsert
overwrites every column including the status of an existing row. -/
def recordCompletion (db : Db) (b : CompleteBody) : Except String Db :=
  if b.chainId = 0 then Except.error "bad chainId"
  else if ¬ isAddress b.worker then Except.error "bad worker address"
  else if ¬ isTxHash b.txHash then Except.error "bad txHash"
  else if b.completedAt = 0 then Except.error "bad completedAt"
  else if ¬ isHex b.signature then Except.error "bad signature"
  else if ¬ isAddress b.target then Except.error "bad target address"
  else if ¬ isDigits b.key then Except.error "bad key"
  else if ¬ isDigits b.value then Except.error "bad value"
  else Except.ok (Function.update db (b.chainId, b.agreementId)
    (some { status := TaskStatus.pending,
            worker := some (jsToLower b.worker),
            txHash := some (jsToLower b.txHash),
            completedAt := some b.completedAt,
            signature := some (jsToLower b.signature),
            target := some (jsToLower b.target),
            key := some b.key,
            value := some b.value }))

/-- Route `POST /tasks/dispute` (`markDisputed`): sets status `'disputed'` on the
existing row for the key, if any (the SQL `UPDATE` touches no other row and
creates none). -/
def markDisputed (db : Db) (chainId agreementId : Nat) : Except String Db :=
  if chainId = 0 then Except.error "bad chainId"
  else Except.ok
    (match db (chainId, agreementId) with
     | none => db
     | some rec =>
       Function.update db (chainId, agreementId)
         (some { rec with status := TaskStatus.disputed }))

end ApiServer

namespace Bridge

/-- The task object the bridge parses from the store's JSON answer
(`ApiTask` in `eth-condition/main.ts`). -/
structure ApiTask where
  chainId : Nat
  agreementId : Nat
  status : ApiServer.TaskStatus
  worker : String
  txHash : String
  completedAt : Nat
  signature : String
deriving DecidableEq, Repr

/-- Function `buildCompletionMessage` of `eth-condition/main.ts`: five pipe-joined
segments — no `target`, `key` or `value` segment, and no lowercasing. -/
def buildCompletionMessage (chainId agreementId : Nat) (txHash : String)
    (completedAt : Nat) : String :=
  "JiffyEscrowComplete|chainId=" ++ toString chainId ++
  "|agreementId=" ++ toString agreementId ++
  "|txHash=" ++ txHash ++
  "|completedAt=" ++ toString completedAt

/-- Outcome of one `onLog` invocation: the handler's returned string and the
list of agreement ids for which a report was encoded and submitted through
`writeReport` to the Receiver. -/
structure LogResult where
  result : String
  writes : List Nat
deriving DecidableEq, Repr

/-- The per-signal handler `onLog`. Inputs model the run's external facts:
`parsedId` is `parseAgreementId`'s result; `parsed` is the fetched body after
`JSON.parse` (`none` = non-JSON, `some none` = a falsy parse such as `null`);
`sigResolves` is the boolean viem's `verifyMessage` promise would resolve to
for the reconstructed message. The source binds
`const sigOk = verifyMessage({...})` without `await`, so `sigOk` is the
Promise object itself — a truthy JS value whatever `sigResolves` is — and the
`if (!sigOk)` bad-signature skip can never fire. -/
def onLog (parsedId : Option Nat) (parsed : Option (Option ApiTask))
    (sigResolves : Bool) : LogResult :=
  match parsedId with
  | none => { result := "skip: not escrow signal", writes := [] }
  | some id =>
    match parsed with
    | none => { result := "skip: bad api json", writes := [] }
    | some none => { result := "skip: not completed", writes := [] }
    | some (some task) =>
      if task.status ≠ ApiServer.TaskStatus.completed then
        { result := "skip: not completed", writes := [] }
      else
        let msg := buildCompletionMessage task.chainId task.agreementId
          task.txHash task.completedAt
        let sigOkIsTruthy : Bool := true
        if ¬ sigOkIsTruthy then
          { result := "skip: bad signature", writes := [] }
        else
          { result := "ok: wrote report for id=" ++ toString id, writes := [id] }

end Bridge

namespace Escrow

/-- Token `weth.safeTransfer` only moves balances: every other component of the
combined state is unchanged. -/
theorem transfer_fields {s s' : Ledger} {src dst amt : Nat}
    (h : transfer s src dst amt = some s') :
    s'.self = s.self ∧ s'.owner = s.owner ∧ s'.weth = s.weth ∧
    s'.protocolFeeBps = s.protocolFeeBps ∧ s'.feeRecipient = s.feeRecipient ∧
    s'.conditionImpl = s.conditionImpl ∧ s'.agreements = s.agreements ∧
    s'.nextId = s.nextId ∧ s'.allowance = s.allowance := by
  unfold transfer at h
  split at h
  · simp only [Option.some.injEq] at h
    subst h
    exact ⟨rfl, rfl, rfl, rfl, rfl, rfl, rfl, rfl, rfl⟩
  · simp at h

/-- Token `weth.safeTransferFrom` only moves balances and allowance. -/
theorem transferFrom_fields {s s' : Ledger} {src spender dst amt : Nat}
    (h : transferFrom s src spender dst amt = some s') :
    s'.self = s.self ∧ s'.owner = s.owner ∧ s'.weth = s.weth ∧
    s'.protocolFeeBps = s.protocolFeeBps ∧ s'.feeRecipient = s.feeRecipient ∧
    s'.conditionImpl = s.conditionImpl ∧ s'.agreements = s.agreements ∧
    s'.nextId = s.nextId := by
  unfold transferFrom at h
  split at h
  · cases htr : transfer s src dst amt with
    | none => rw [htr] at h; simp at h
    | some s1 =>
      rw [htr] at h
      simp only [Option.map_some', Option.some.injEq] at h
      subst h
      obtain ⟨h1, h2, h3, h4, h5, h6, h7, h8, _⟩ := transfer_fields htr
      exact ⟨h1, h2, h3, h4, h5, h6, h7, h8⟩
  · simp at h

/-- The facts about one transition that the registry / id-allocation
invariants need: registered evaluators stay registered, `nextId` never
decreases, and the `condition` of an already-allocated agreement is
untouched. -/
def Preserves (s s' : Ledger) (id : Nat) : Prop :=
  (∀ t, s.conditionImpl t ≠ 0 → s'.conditionImpl t ≠ 0)
  ∧ s.nextId ≤ s'.nextId
  ∧ (id < s.nextId → (s'.agreements id).condition = (s.agreements id).condition)

theorem preserves_refl (s : Ledger) (id : Nat) : Preserves s s id :=
  ⟨fun _ h => h, le_refl _, fun _ => rfl⟩

theorem preserves_trans {s1 s2 s3 : Ledger} {id : Nat}
    (h12 : Preserves s1 s2 id) (h23 : Preserves s2 s3 id) : Preserves s1 s3 id := by
  obtain ⟨a12, b12, c12⟩ := h12
  obtain ⟨a23, b23, c23⟩ := h23
  exact ⟨fun t h => a23 t (a12 t h), le_trans b12 b23,
    fun hid => (c23 (lt_of_lt_of_le hid b12)).trans (c12 hid)⟩

theorem applyOp_preserves (s : Ledger) (op : Op) (id : Nat) :
    Preserves s (applyOp s op) id := by
  cases op with
  | setFee sender feeBps recipient =>
    simp only [applyOp]
    split
    · next s' ev heq =>
      unfold setFeeConfig at heq
      split at heq
      · simp at heq
      · split at heq
        · simp at heq
        · split at heq
          · simp at heq
          · simp only [Option.some.injEq, Prod.mk.injEq] at heq
            obtain ⟨rfl, rfl⟩ := heq
            exact preserves_refl s id
    · exact preserves_refl s id
  | setCond sender conditionType impl =>
    simp only [applyOp]
    split
    · next s' ev heq =>
      unfold setConditionImpl at heq
      split at heq
      · simp at heq
      · split at heq
        · simp at heq
        · next himpl =>
          simp only [Option.some.injEq, Prod.mk.injEq] at heq
          obtain ⟨rfl, rfl⟩ := heq
          refine ⟨fun t h => ?_, le_refl _, fun _ => rfl⟩
          by_cases ht : conditionType = t
          · subst ht
            simpa [Function.update_same] using himpl
          · simpa [Function.update_noteq (Ne.symm ht)] using h
    · exact preserves_refl s id
  | create sender now payee amount deadline condition =>
    simp only [applyOp]
    split
    · next s' rid ev heq =>
      unfold createAgreement at heq
      split at heq
      · simp at heq
      · split at heq
        · simp at heq
        · split at heq
          · simp at heq
          · split at heq
            · simp at heq
            · split at heq
              · simp at heq
              · split at heq
                · simp at heq
                · simp only [Option.some.injEq, Prod.mk.injEq] at heq
                  obtain ⟨rfl, rfl, rfl⟩ := heq
                  refine ⟨fun t h => h, Nat.le_succ _, fun hid => ?_⟩
                  have : id ≠ s.nextId := Nat.ne_of_lt hid
                  simp [Function.update_noteq this]
    · exact preserves_refl s id
  | dep sender did =>
    simp only [applyOp]
    split
    · next s' ev heq =>
      unfold deposit at heq
      dsimp only at heq
      split at heq
      · simp at heq
      · split at heq
        · simp at heq
        · split at heq
          · simp at heq
          · split at heq
            · simp at heq
            · split at heq
              · simp at heq
              · next s1 htf =>
                split at heq
                · simp at heq
                · next s2 hif =>
                  simp only [Option.some.injEq, Prod.mk.injEq] at heq
                  obtain ⟨rfl, rfl⟩ := heq
                  obtain ⟨_, _, _, _, _, hci1, hag1, hni1⟩ := transferFrom_fields htf
                  have hfields2 : s2.conditionImpl = s1.conditionImpl ∧
                      s2.agreements = s1.agreements ∧ s2.nextId = s1.nextId := by
                    split at hif
                    · obtain ⟨_, _, _, _, _, hc, ha, hn, _⟩ := transfer_fields hif
                      exact ⟨hc, ha, hn⟩
                    · simp only [Option.some.injEq] at hif
                      subst hif
                      exact ⟨rfl, rfl, rfl⟩
                  obtain ⟨hci2, hag2, hni2⟩ := hfields2
                  refine ⟨fun t h => ?_, ?_, fun hid => ?_⟩
                  · simpa [hci2, hci1] using h
                  · simp [hni2, hni1]
                  · by_cases hd : id = did
                    · subst hd
                      simp [Function.update_same, hag2, hag1]
                    · simp [Function.update_noteq hd, hag2, hag1]
    · exact preserves_refl s id
  | exec now eid isSatisfied =>
    simp only [applyOp]
    split
    · next s' ev r heq =>
      unfold executeIfSatisfied at heq
      dsimp only at heq
      split at heq
      · simp only [Option.some.injEq, Prod.mk.injEq] at heq
        obtain ⟨rfl, rfl, rfl⟩ := heq
        exact preserves_refl s id
      · split at heq
        · simp only [Option.some.injEq, Prod.mk.injEq] at heq
          obtain ⟨rfl, rfl, rfl⟩ := heq
          exact preserves_refl s id
        · split at heq
          · simp only [Option.some.injEq, Prod.mk.injEq] at heq
            obtain ⟨rfl, rfl, rfl⟩ := heq
            exact preserves_refl s id
          · split at heq
            · simp only [Option.some.injEq, Prod.mk.injEq] at heq
              obtain ⟨rfl, rfl, rfl⟩ := heq
              exact preserves_refl s id
            · split at heq
              · simp at heq
              · next s2 htr =>
                simp only [Option.some.injEq, Prod.mk.injEq] at heq
                obtain ⟨rfl, rfl, rfl⟩ := heq
                obtain ⟨_, _, _, _, _, hc, ha, hn, _⟩ := transfer_fields htr
                refine ⟨fun t h => ?_, ?_, fun hid => ?_⟩
                · simpa [hc] using h
                · simp [hn]
                · by_cases hd : id = eid
                  · subst hd
                    simp [Function.update_same, ha]
                  · simp [Function.update_noteq hd, ha]
    · exact preserves_refl s id
  | ref now rid =>
    simp only [applyOp]
    split
    · next s' ev heq =>
      unfold refund at heq
      dsimp only at heq
      split at heq
      · simp at heq
      · split at heq
        · simp at heq
        · cases htr : transfer { s with
              agreements := Function.update s.agreements rid
                { s.agreements rid with state := State.Refunded } } _ _ _ with
          | none => rw [htr] at heq; simp at heq
          | some s2 =>
            rw [htr] at heq
            simp only [Option.map_some', Option.some.injEq, Prod.mk.injEq] at heq
            obtain ⟨rfl, rfl⟩ := heq
            obtain ⟨_, _, _, _, _, hc, ha, hn, _⟩ := transfer_fields htr
            refine ⟨fun t h => ?_, ?_, fun hid => ?_⟩
            · simpa [hc] using h
            · simp [hn]
            · by_cases hd : id = rid
              · subst hd
                simp [ha, Function.update_same]
              · simp [ha, Function.update_noteq hd]
    · exact preserves_refl s id

theorem runOps_preserves (s : Ledger) (ops : List Op) (id : Nat) :
    Preserves s (runOps s ops) id := by
  induction ops generalizing s with
  | nil => exact preserves_refl s id
  | cons op rest ih =>
    exact preserves_trans (applyOp_preserves s op id) (ih (applyOp s op))

end Escrow

/-- A 42-character hex address literal `0x` followed by forty copies of `c`. -/
def addrHex40 (c : Char) : String := "0x" ++ String.mk (List.replicate 40 c)

/-- A 66-character transaction-hash literal `0x` followed by sixty-four
copies of `c`. -/
def hashHex64 (c : Char) : String := "0x" ++ String.mk (List.replicate 64 c)

/-- C9: the Receiver's write entry point (`onReport` / `_handleReport`)
reverts with `OnlyForwarder` for every caller other than the fixed
forwarder; called by the forwarder, a payload shorter than 32 bytes reverts
with `BadReport`, and a payload of at least 32 bytes decodes the agreement id
as a big-endian uint256 and makes exactly one `executeIfSatisfied(id)` call
on the Ledger. -/
theorem receiver_onReport_authorization (forwarder sender : Nat) (report : List Nat) :
    (sender ≠ forwarder →
      EscrowExecReceiver.handleReport forwarder sender report =
        Except.error (EscrowExecReceiver.RcvError.OnlyForwarder sender)) ∧
    (sender = forwarder → report.length < 32 →
      EscrowExecReceiver.handleReport forwarder sender report =
        Except.error EscrowExecReceiver.RcvError.BadReport) ∧
    (sender = forwarder → 32 ≤ report.length →
      EscrowExecReceiver.handleReport forwarder sender report =
        Except.ok [EscrowExecReceiver.decodeUint256 report]) := by
  unfold EscrowExecReceiver.handleReport
  refine ⟨fun h => ?_, fun h hlen => ?_, fun h hlen => ?_⟩
  · rw [if_pos h]
  · subst h
    rw [if_neg (by simp), if_pos hlen]
  · subst h
    rw [if_neg (by simp), if_neg (by omega)]

/-- Witness for the receiver theorem: a foreign caller is rejected, a short
report is rejected, and a 32-byte report decoding to 9 yields exactly the
call `executeIfSatisfied(9)`. -/
theorem receiver_onReport_authorization_witness :
    EscrowExecReceiver.handleReport 5 7 [] =
      Except.error (EscrowExecReceiver.RcvError.OnlyForwarder 7) ∧
    EscrowExecReceiver.handleReport 5 5 [1, 2, 3] =
      Except.error EscrowExecReceiver.RcvError.BadReport ∧
    EscrowExecReceiver.handleReport 5 5 (List.replicate 31 0 ++ [9]) =
      Except.ok [9] := by
  refine ⟨(receiver_onReport_authorization 5 7 []).1 (by decide),
    (receiver_onReport_authorization 5 5 [1, 2, 3]).2.1 rfl (by decide), ?_⟩
  have h := (receiver_onReport_authorization 5 5
    (List.replicate 31 0 ++ [9])).2.2 rfl (by decide)
  have hdec : EscrowExecReceiver.decodeUint256 (List.replicate 31 0 ++ [9]) = 9 := by
    decide
  rw [h, hdec]

/-- C2: the canonical completion messages of the store and of the bridge are
NOT byte-identical. At a concrete tuple whose `txHash` is already lowercase
(so the shared fields agree exactly), the store's eight-segment message and
the bridge's five-segment message differ: the bridge omits the `target`,
`key` and `value` segments required by the canonical format. -/
theorem store_bridge_canonical_message_differ :
    ApiServer.buildCompletionMessage 1 1 (addrHex40 'c') "13" "123456"
        (hashHex64 'b') 1700000000 ≠
      Bridge.buildCompletionMessage 1 1 (hashHex64 'b') 1700000000 := by
  decide

/-- C1: the bridge handler does NOT skip on an invalid signature. For a task
with status `completed` whose signature does not recover to the worker (the
`verifyMessage` promise would resolve to `false`), `onLog` still returns the
write outcome and submits the report for the agreement id — for any
resolution value of the un-awaited promise. -/
theorem bridge_writes_despite_invalid_signature :
    ∀ sigResolves : Bool,
      Bridge.onLog (some 1)
        (some (some { chainId := 1
                      agreementId := 1
                      status := ApiServer.TaskStatus.completed
                      worker := addrHex40 'a'
                      txHash := hashHex64 'b'
                      completedAt := 1700000000
                      signature := "0x1234" }))
        sigResolves
      = { result := "ok: wrote report for id=1", writes := [1] } := by
  intro sigResolves
  rfl

namespace Escrow

/-- Shape of a successful `createAgreement`: the allocated id is the old
`nextId`, the new state stores the fresh `Created` agreement there and bumps
`nextId`, the two events are emitted in order, and every `require` held. -/
theorem createAgreement_some {s : Ledger}
    {sender now payee amount deadline : Nat} {condition : Condition}
    {s' : Ledger} {id : Nat} {ev : List Event}
    (h : createAgreement s sender now payee amount deadline condition = some (s', id, ev)) :
    id = s.nextId ∧
    s' = { s with
      agreements := Function.update s.agreements s.nextId
        { payer := sender, payee := payee, token := s.weth, amount := amount,
          createdAt := now, deadline := deadline, condition := condition,
          state := State.Created },
      nextId := s.nextId + 1 } ∧
    ev = [Event.AgreementCreated s.nextId sender payee amount deadline
            condition.conditionType condition.target,
          Event.EscrowSignal s.nextId] ∧
    payee ≠ 0 ∧ amount ≠ 0 ∧ now < deadline ∧ condition.data ≠ [] ∧
    s.conditionImpl condition.conditionType ≠ 0 := by
  unfold createAgreement at h
  dsimp only at h
  split_ifs at h with h1 h2 h3 h4 h5 h6
  simp only [Option.some.injEq, Prod.mk.injEq] at h
  obtain ⟨rfl, rfl, rfl⟩ := h
  exact ⟨rfl, rfl, rfl, h1, h2, h3, h4, h5⟩

end Escrow

/-- C8: `createAgreement` fails exactly on a null payee, zero amount,
non-future deadline, empty condition data, or unregistered evaluator (given
that the id counter has not exhausted uint256, which checked arithmetic
guards); on success it allocates the current `nextId`, increments it, stores
a `Created` agreement with the given fields, and emits `AgreementCreated`
followed by `EscrowSignal`; and across any later sequence of ledger
transactions a subsequent successful creation returns a strictly larger id —
ids are monotonically increasing, unique, and never reused. -/
theorem createAgreement_spec (s : Escrow.Ledger)
    (sender now payee amount deadline : Nat) (condition : Escrow.Condition)
    (hcap : s.nextId + 1 < twoPow256) :
    (Escrow.createAgreement s sender now payee amount deadline condition = none ↔
      payee = 0 ∨ amount = 0 ∨ deadline ≤ now ∨ condition.data = [] ∨
      s.conditionImpl condition.conditionType = 0) ∧
    (∀ s' id ev,
      Escrow.createAgreement s sender now payee amount deadline condition
        = some (s', id, ev) →
      id = s.nextId ∧ s'.nextId = s.nextId + 1 ∧
      (s'.agreements id).state = Escrow.State.Created ∧
      (s'.agreements id).payer = sender ∧ (s'.agreements id).payee = payee ∧
      (s'.agreements id).amount = amount ∧
      (s'.agreements id).deadline = deadline ∧
      (s'.agreements id).condition = condition ∧
      ev = [Escrow.Event.AgreementCreated id sender payee amount deadline
              condition.conditionType condition.target,
            Escrow.Event.EscrowSignal id]) ∧
    (∀ s1 id1 ev1,
      Escrow.createAgreement s sender now payee amount deadline condition
        = some (s1, id1, ev1) →
      ∀ ops sender2 now2 payee2 amount2 deadline2 condition2 s2 id2 ev2,
        Escrow.createAgreement (Escrow.runOps s1 ops) sender2 now2 payee2
          amount2 deadline2 condition2 = some (s2, id2, ev2) →
        id1 < id2) := by
  refine ⟨?_, ?_, ?_⟩
  · unfold Escrow.createAgreement
    dsimp only
    split_ifs <;> simp_all [Nat.not_lt]
  · intro s' id ev h
    obtain ⟨hid, hs, hev, _⟩ := Escrow.createAgreement_some h
    subst hid
    subst hs
    subst hev
    refine ⟨rfl, rfl, ?_, ?_, ?_, ?_, ?_, ?_, rfl⟩ <;>
      simp [Function.update_same]
  · intro s1 id1 ev1 h1 ops sender2 now2 payee2 amount2 deadline2 condition2 s2 id2 ev2 h2
    obtain ⟨hid1, hs1, -⟩ := Escrow.createAgreement_some h1
    obtain ⟨hid2, -⟩ := Escrow.createAgreement_some h2
    obtain ⟨-, hmono, -⟩ := Escrow.runOps_preserves s1 ops 0
    have hn1 : s1.nextId = s.nextId + 1 := by rw [hs1]
    omega

/-- A small concrete ledger state: owner `1`, evaluator `77` registered for
condition type `1`, empty agreement book, id counter at `1`. -/
def sampleLedger : Escrow.Ledger :=
  { self := 100
    owner := 1
    weth := 50
    protocolFeeBps := 0
    feeRecipient := 1
    conditionImpl := Function.update (fun _ => 0) 1 77
    agreements := fun _ => Escrow.Agreement.zero
    nextId := 1
    balances := fun _ => 0
    allowance := fun _ _ => 0 }

/-- Witness for `createAgreement_spec`: on the sample ledger (id counter far
below the uint256 cap) a creation with a null payee fails. -/
theorem createAgreement_spec_witness :
    Escrow.createAgreement sampleLedger 2 10 0 5 20
      { conditionType := 1, target := 0, data := [1] } = none :=
  (createAgreement_spec sampleLedger 2 10 0 5 20
    { conditionType := 1, target := 0, data := [1] } (by decide)).1.mpr (Or.inl rfl)

/-- C10: `setConditionImpl` rejects the zero address unconditionally, so a
registered evaluator can be replaced but never unregistered; consequently,
for an agreement whose condition type had a registered evaluator at creation
(which `createAgreement` requires), after any sequence of ledger
transactions the `"condition missing"` skip branch of `executeIfSatisfied`
is unreachable for that agreement's id. -/
theorem condition_missing_skip_unreachable
    (s s1 : Escrow.Ledger) (sender now payee amount deadline : Nat)
    (condition : Escrow.Condition) (id : Nat) (ev : List Escrow.Event)
    (hc : Escrow.createAgreement s sender now payee amount deadline condition
      = some (s1, id, ev))
    (ops : List Escrow.Op) (now2 : Nat) (o : Nat → Nat → List Nat → Bool) :
    (∀ (s0 : Escrow.Ledger) (sender0 t0 : Nat),
      Escrow.setConditionImpl s0 sender0 t0 0 = none) ∧
    ∀ s2 ev2 r,
      Escrow.executeIfSatisfied (Escrow.runOps s1 ops) now2 id o
        = some (s2, ev2, r) →
      Escrow.Event.ExecutionSkipped id "condition missing" ∉ ev2 := by
  constructor
  · intro s0 sender0 t0
    simp [Escrow.setConditionImpl]
  · obtain ⟨hid, hs1, hev, hp, ha, hd, hdata, himpl⟩ := Escrow.createAgreement_some hc
    subst hid
    have hn1 : s1.nextId = s.nextId + 1 := by rw [hs1]
    have hc1 : (s1.agreements s.nextId).condition = condition := by
      rw [hs1]
      simp [Function.update_same]
    have hi1 : s1.conditionImpl condition.conditionType ≠ 0 := by
      rw [hs1]
      exact himpl
    obtain ⟨himp, hmono, hcond⟩ := Escrow.runOps_preserves s1 ops s.nextId
    have hcN : ((Escrow.runOps s1 ops).agreements s.nextId).condition = condition := by
      rw [hcond (by omega)]
      exact hc1
    have hiN : (Escrow.runOps s1 ops).conditionImpl condition.conditionType ≠ 0 :=
      himp _ hi1
    intro s2 ev2 r hex hmem
    unfold Escrow.executeIfSatisfied at hex
    dsimp only at hex
    split at hex
    · simp only [Option.some.injEq, Prod.mk.injEq] at hex
      obtain ⟨-, rfl, -⟩ := hex
      simp at hmem
    · split at hex
      · simp only [Option.some.injEq, Prod.mk.injEq] at hex
        obtain ⟨-, rfl, -⟩ := hex
        simp at hmem
      · split at hex
        · next hc0 =>
          rw [hcN] at hc0
          exact absurd hc0 hiN
        · split at hex
          · simp only [Option.some.injEq, Prod.mk.injEq] at hex
            obtain ⟨-, rfl, -⟩ := hex
            simp at hmem
          · split at hex
            · exact Option.noConfusion hex
            · simp only [Option.some.injEq, Prod.mk.injEq] at hex
              obtain ⟨-, rfl, -⟩ := hex
              simp at hmem

/-- Witness for `condition_missing_skip_unreachable`: on the sample ledger a
concrete creation succeeds, and after an empty transaction sequence the
execution attempt at its id reports `"state!=Funded"` (the agreement is not
yet funded) — not `"condition missing"`. -/
theorem condition_missing_skip_unreachable_witness :
    Escrow.Event.ExecutionSkipped 1 "condition missing" ∉
      [Escrow.Event.ExecutionSkipped 1 "state!=Funded"] := by
  have h := condition_missing_skip_unreachable sampleLedger _ 2 10 7 5 20
    { conditionType := 1, target := 0, data := [1] } 1 _ rfl [] 10 (fun _ _ _ => true)
  exact h.2 _ _ _ rfl

namespace Escrow

/-- Calling `executeIfSatisfied` on an agreement in state `Completed` is a pure
no-op skip: state unchanged, one `ExecutionSkipped` event, null return. -/
theorem exec_completed_noop {s : Ledger} {n id : Nat}
    {o : Nat → Nat → List Nat → Bool}
    (hst : (s.agreements id).state = State.Completed) :
    executeIfSatisfied s n id o
      = some (s, [Event.ExecutionSkipped id "state!=Funded"], 0) := by
  unfold executeIfSatisfied
  dsimp only
  rw [if_pos (by rw [hst]; decide)]

/-- Every terminating `executeIfSatisfied` call either skips (no `Completed`
event, state unchanged) or pays out exactly once (one `Completed` event,
agreement left in state `Completed`). -/
theorem exec_pay_or_skip {s : Ledger} {now id : Nat}
    {o : Nat → Nat → List Nat → Bool} {s' : Ledger} {ev : List Event} {r : Nat}
    (h : executeIfSatisfied s now id o = some (s', ev, r)) :
    (ev.count (Event.Completed id) = 0 ∧ s' = s) ∨
    (ev.count (Event.Completed id) = 1 ∧
      (s'.agreements id).state = State.Completed) := by
  unfold executeIfSatisfied at h
  dsimp only at h
  split at h
  · simp only [Option.some.injEq, Prod.mk.injEq] at h
    obtain ⟨rfl, rfl, rfl⟩ := h
    exact Or.inl ⟨by simp, rfl⟩
  · split at h
    · simp only [Option.some.injEq, Prod.mk.injEq] at h
      obtain ⟨rfl, rfl, rfl⟩ := h
      exact Or.inl ⟨by simp, rfl⟩
    · split at h
      · simp only [Option.some.injEq, Prod.mk.injEq] at h
        obtain ⟨rfl, rfl, rfl⟩ := h
        exact Or.inl ⟨by simp, rfl⟩
      · split at h
        · simp only [Option.some.injEq, Prod.mk.injEq] at h
          obtain ⟨rfl, rfl, rfl⟩ := h
          exact Or.inl ⟨by simp, rfl⟩
        · split at h
          · exact Option.noConfusion h
          · simp only [Option.some.injEq, Prod.mk.injEq] at h
            obtain ⟨rfl, rfl, rfl⟩ := h
            refine Or.inr ⟨by simp, ?_⟩
            simp [Function.update_same]

end Escrow

/-- C4: `executeIfSatisfied` is idempotent in effect. Calling it on an
agreement already `Completed` performs no transfer, emits `ExecutionSkipped`,
returns the null marker `bytes32(0)` and leaves the whole state (balances
included) unchanged; and across any two sequential calls on the same id the
payout (the `Completed` event, which accompanies exactly the one token
transfer to the payee) happens at most once. -/
theorem executeIfSatisfied_idempotent (s : Escrow.Ledger) (id n1 n2 : Nat)
    (o1 o2 : Nat → Nat → List Nat → Bool) :
    ((s.agreements id).state = Escrow.State.Completed →
      Escrow.executeIfSatisfied s n1 id o1
        = some (s, [Escrow.Event.ExecutionSkipped id "state!=Funded"], 0)) ∧
    (∀ s1 ev1 r1, Escrow.executeIfSatisfied s n1 id o1 = some (s1, ev1, r1) →
      ∀ s2 ev2 r2, Escrow.executeIfSatisfied s1 n2 id o2 = some (s2, ev2, r2) →
        ev1.count (Escrow.Event.Completed id)
          + ev2.count (Escrow.Event.Completed id) ≤ 1) := by
  constructor
  · exact fun hst => Escrow.exec_completed_noop hst
  · intro s1 ev1 r1 h1 s2 ev2 r2 h2
    rcases Escrow.exec_pay_or_skip h1 with ⟨hc1, rfl⟩ | ⟨hc1, hst1⟩
    · rcases Escrow.exec_pay_or_skip h2 with ⟨hc2, -⟩ | ⟨hc2, -⟩ <;> omega
    · rw [Escrow.exec_completed_noop hst1] at h2
      simp only [Option.some.injEq, Prod.mk.injEq] at h2
      obtain ⟨-, rfl, -⟩ := h2
      simp [hc1]

/-- The sample ledger with agreement `1` already `Completed`. -/
def completedLedger : Escrow.Ledger :=
  { sampleLedger with
    agreements := Function.update sampleLedger.agreements 1
      { Escrow.Agreement.zero with state := Escrow.State.Completed } }

/-- Witness for the idempotence theorem: on a ledger whose agreement `1` is
`Completed`, a further execution attempt is exactly the no-op skip. -/
theorem executeIfSatisfied_idempotent_witness :
    Escrow.executeIfSatisfied completedLedger 10 1 (fun _ _ _ => true)
      = some (completedLedger,
          [Escrow.Event.ExecutionSkipped 1 "state!=Funded"], 0) :=
  (executeIfSatisfied_idempotent completedLedger 1 10 10
    (fun _ _ _ => true) (fun _ _ _ => true)).1 (by
      simp [completedLedger, Function.update_same])

/-- C7: `refund` succeeds exactly when the agreement is `Funded` and the
time is strictly past the deadline (success additionally presumes the escrow
actually holds the funds, which funding guarantees); on success it marks the
agreement `Refunded`, emits `Refunded`, and returns exactly `amount` — no
fee — to the payer; calling it too early, in a wrong state, or a second time
after a successful refund reverts, which mutates nothing. -/
theorem refund_spec (s : Escrow.Ledger) (now now2 id : Nat) :
    (¬((s.agreements id).state = Escrow.State.Funded ∧
        (s.agreements id).deadline < now) →
      Escrow.refund s now id = none) ∧
    ((s.agreements id).state = Escrow.State.Funded →
      (s.agreements id).deadline < now →
      (s.agreements id).amount ≤ s.balances s.self →
      Escrow.refund s now id ≠ none) ∧
    (∀ s' ev, Escrow.refund s now id = some (s', ev) →
      (s.agreements id).state = Escrow.State.Funded ∧
      (s.agreements id).deadline < now ∧
      ev = [Escrow.Event.Refunded id] ∧
      (s'.agreements id).state = Escrow.State.Refunded ∧
      Escrow.refund s' now2 id = none ∧
      ((s.agreements id).payer ≠ s.self →
        s'.balances (s.agreements id).payer
          = s.balances (s.agreements id).payer + (s.agreements id).amount ∧
        s'.balances s.self = s.balances s.self - (s.agreements id).amount)) := by
  refine ⟨?_, ?_, ?_⟩
  · intro h
    unfold Escrow.refund
    dsimp only
    rcases Decidable.em ((s.agreements id).state = Escrow.State.Funded) with h1 | h1
    · have h2 : ¬ (s.agreements id).deadline < now := fun hd => h ⟨h1, hd⟩
      rw [if_neg (not_not_intro h1), if_pos h2]
    · rw [if_pos h1]
  · intro h1 h2 hbal
    unfold Escrow.refund
    dsimp only
    rw [if_neg (not_not_intro h1), if_neg (not_not_intro h2)]
    unfold Escrow.transfer
    dsimp only
    rw [if_pos hbal]
    simp
  · intro s' ev h
    unfold Escrow.refund at h
    dsimp only at h
    split at h
    · exact Option.noConfusion h
    · next h1 =>
      split at h
      · exact Option.noConfusion h
      · next h2 =>
        rw [Option.map_eq_some'] at h
        obtain ⟨s2, htr, heq⟩ := h
        simp only [Prod.mk.injEq] at heq
        obtain ⟨rfl, rfl⟩ := heq
        obtain ⟨-, -, -, -, -, -, hag, -, -⟩ := Escrow.transfer_fields htr
        have hstate : (s2.agreements id).state = Escrow.State.Refunded := by
          rw [hag]
          dsimp only
          rw [Function.update_same]
        refine ⟨not_not.mp h1, not_not.mp h2, rfl, hstate, ?_, ?_⟩
        · unfold Escrow.refund
          dsimp only
          rw [if_pos (by rw [hstate]; decide)]
        · intro hp
          unfold Escrow.transfer at htr
          dsimp only at htr
          split at htr
          · simp only [Option.some.injEq] at htr
            subst htr
            have hps : ¬ s.self = (s.agreements id).payer := fun he => hp he.symm
            constructor
            · dsimp only
              rw [Function.update_same]
              rw [Function.update_apply]
              rw [if_neg hp]
            · dsimp only
              rw [Function.update_apply, if_neg hps, Function.update_same]
          · exact Option.noConfusion htr

/-- The sample ledger with agreement `1` funded: payer `2`, payee `7`,
amount `5`, deadline `20`, and `5` WETH held by the escrow account `100`. -/
def fundedLedger : Escrow.Ledger :=
  { sampleLedger with
    agreements := Function.update sampleLedger.agreements 1
      { payer := 2
        payee := 7
        token := 50
        amount := 5
        createdAt := 10
        deadline := 20
        condition := { conditionType := 1, target := 0, data := [1] }
        state := Escrow.State.Funded }
    balances := Function.update sampleLedger.balances 100 5 }

/-- Witness for `refund_spec`: before the deadline the refund reverts, after
the deadline it succeeds. -/
theorem refund_spec_witness :
    Escrow.refund fundedLedger 15 1 = none ∧
    Escrow.refund fundedLedger 30 1 ≠ none := by
  constructor
  · exact (refund_spec fundedLedger 15 99 1).1 (by decide)
  · exact (refund_spec fundedLedger 30 99 1).2.1 (by decide) (by decide) (by decide)

/-- C6: fee rates are capped — `setFeeConfig` only accepts `f ≤ 500` basis
points — and for an agreement in state `Created`, a deposit by the payer
with sufficient balance and allowance succeeds; any successful deposit
debits the payer exactly `amount + amount * feeBps / 10000` (integer
division), credits the fee recipient `amount * feeBps / 10000`, leaves
`amount` with the escrow, emits `Deposited` then `EscrowSignal`, and moves
the agreement to `Funded`; a caller other than the payer, or a state other
than `Created`, reverts. -/
theorem deposit_spec (s : Escrow.Ledger) (sender id : Nat) :
    (∀ (s0 : Escrow.Ledger) (sender0 feeBps0 recipient0 : Nat) out,
      Escrow.setFeeConfig s0 sender0 feeBps0 recipient0 = some out →
        feeBps0 ≤ 500) ∧
    ((s.agreements id).state ≠ Escrow.State.Created →
      Escrow.deposit s sender id = none) ∧
    (sender ≠ (s.agreements id).payer → Escrow.deposit s sender id = none) ∧
    ((s.agreements id).state = Escrow.State.Created →
      sender = (s.agreements id).payer →
      (s.agreements id).amount * s.protocolFeeBps < twoPow256 →
      (s.agreements id).amount
        + (s.agreements id).amount * s.protocolFeeBps / 10000 < twoPow256 →
      (s.agreements id).amount
        + (s.agreements id).amount * s.protocolFeeBps / 10000
        ≤ s.balances sender →
      (s.agreements id).amount
        + (s.agreements id).amount * s.protocolFeeBps / 10000
        ≤ s.allowance sender s.self →
      Escrow.deposit s sender id ≠ none) ∧
    (∀ s' ev, Escrow.deposit s sender id = some (s', ev) →
      ev = [Escrow.Event.Deposited id sender (s.agreements id).amount
              ((s.agreements id).amount * s.protocolFeeBps / 10000),
            Escrow.Event.EscrowSignal id] ∧
      (s'.agreements id).state = Escrow.State.Funded ∧
      (sender ≠ s.self → s.feeRecipient ≠ sender → s.feeRecipient ≠ s.self →
        s'.balances sender
          = s.balances sender - ((s.agreements id).amount
              + (s.agreements id).amount * s.protocolFeeBps / 10000) ∧
        s'.balances s.self = s.balances s.self + (s.agreements id).amount ∧
        s'.balances s.feeRecipient
          = s.balances s.feeRecipient
              + (s.agreements id).amount * s.protocolFeeBps / 10000)) := by
  refine ⟨?_, ?_, ?_, ?_, ?_⟩
  · intro s0 sender0 feeBps0 recipient0 out h
    unfold Escrow.setFeeConfig at h
    split_ifs at h with g1 g2 g3
    exact g2
  · intro hst
    unfold Escrow.deposit
    dsimp only
    rw [if_pos hst]
  · intro hsender
    unfold Escrow.deposit
    dsimp only
    rcases Decidable.em ((s.agreements id).state ≠ Escrow.State.Created) with h1 | h1
    · rw [if_pos h1]
    · rw [if_neg h1, if_pos hsender]
  · intro hst hpayer hmul hadd hbal hallow hnone
    unfold Escrow.deposit at hnone
    dsimp only at hnone
    rw [if_neg (not_not_intro hst), if_neg (not_not_intro hpayer),
      if_neg (not_not_intro hmul), if_neg (not_not_intro hadd)] at hnone
    split at hnone
    · next htf =>
      unfold Escrow.transferFrom at htf
      rw [if_pos hallow, Option.map_eq_none'] at htf
      unfold Escrow.transfer at htf
      rw [if_pos hbal] at htf
      exact Option.noConfusion htf
    · next s1 htf =>
      unfold Escrow.transferFrom at htf
      rw [if_pos hallow, Option.map_eq_some'] at htf
      obtain ⟨st, htr, hs1⟩ := htf
      unfold Escrow.transfer at htr
      rw [if_pos hbal] at htr
      dsimp only at htr
      simp only [Option.some.injEq] at htr
      subst htr
      subst hs1
      split at hnone
      · next hif =>
        split at hif
        · next hfee =>
          unfold Escrow.transfer at hif
          dsimp only at hif
          rw [if_pos (by rw [Function.update_same]; omega)] at hif
          exact Option.noConfusion hif
        · exact Option.noConfusion hif
      · exact Option.noConfusion hnone
  · intro s' ev h
    unfold Escrow.deposit at h
    dsimp only at h
    split at h
    · exact Option.noConfusion h
    · next h1 =>
      split at h
      · exact Option.noConfusion h
      · next h2 =>
        split at h
        · exact Option.noConfusion h
        · next h3 =>
          split at h
          · exact Option.noConfusion h
          · next h4 =>
            split at h
            · exact Option.noConfusion h
            · next s1 htf =>
              unfold Escrow.transferFrom at htf
              split at htf
              · next hallow =>
                rw [Option.map_eq_some'] at htf
                obtain ⟨st, htr, hs1⟩ := htf
                unfold Escrow.transfer at htr
                split at htr
                · next hbal =>
                  dsimp only at htr
                  simp only [Option.some.injEq] at htr
                  subst htr
                  subst hs1
                  split at h
                  · exact Option.noConfusion h
                  · next s2 hsome =>
                    simp only [Option.some.injEq, Prod.mk.injEq] at h
                    obtain ⟨rfl, rfl⟩ := h
                    refine ⟨rfl, by dsimp only; rw [Function.update_same], ?_⟩
                    intro hss hfs hfself
                    have hsf : sender ≠ s.feeRecipient := fun he => hfs he.symm
                    have hselfs : s.self ≠ sender := fun he => hss he.symm
                    have hselffr : s.self ≠ s.feeRecipient := fun he => hfself he.symm
                    split at hsome
                    · next hfee =>
                      unfold Escrow.transfer at hsome
                      dsimp only at hsome
                      split at hsome
                      · next hbal2 =>
                        simp only [Option.some.injEq] at hsome
                        subst hsome
                        dsimp only
                        refine ⟨?_, ?_, ?_⟩
                        · rw [Function.update_noteq hsf,
                            Function.update_noteq hss,
                            Function.update_noteq hss, Function.update_same]
                        · rw [Function.update_noteq hselffr,
                            Function.update_same, Function.update_same,
                            Function.update_noteq hselfs]
                          omega
                        · rw [Function.update_same,
                            Function.update_noteq hfself,
                            Function.update_noteq hfself,
                            Function.update_noteq hfs]
                      · exact Option.noConfusion hsome
                    · next hfee =>
                      simp only [Option.some.injEq] at hsome
                      subst hsome
                      dsimp only
                      have hfee0 :
                          (s.agreements id).amount * s.protocolFeeBps / 10000 = 0 := by
                        omega
                      refine ⟨?_, ?_, ?_⟩
                      · rw [Function.update_noteq hss, Function.update_same]
                      · rw [Function.update_same, Function.update_noteq hselfs]
                        omega
                      · rw [Function.update_noteq hfself,
                          Function.update_noteq hfs]
                        omega
                · exact Option.noConfusion htr
              · exact Option.noConfusion htf

/-- The sample ledger with agreement `1` in state `Created`: payer `2`,
amount `100`, fee rate `250` bps (fee `2`), fee recipient `3`, payer holding
and approving `200` WETH. -/
def createdLedger : Escrow.Ledger :=
  { sampleLedger with
    protocolFeeBps := 250
    feeRecipient := 3
    agreements := Function.update sampleLedger.agreements 1
      { payer := 2
        payee := 7
        token := 50
        amount := 100
        createdAt := 10
        deadline := 20
        condition := { conditionType := 1, target := 0, data := [1] }
        state := Escrow.State.Created }
    balances := Function.update sampleLedger.balances 2 200
    allowance := fun o sp => if o = 2 ∧ sp = 100 then 200 else 0 }

/-- Witness for `deposit_spec`: on the created ledger the payer's deposit
succeeds. -/
theorem deposit_spec_witness : Escrow.deposit createdLedger 2 1 ≠ none :=
  (deposit_spec createdLedger 2 1).2.2.2.1 (by decide) (by decide) (by decide)
    (by decide) (by decide) (by decide)

/-- The empty attestation table. -/
def emptyDb : ApiServer.Db := fun _ => none

/-- A fully-populated disputed record for key `(1, 1)`. -/
def disputedRec : ApiServer.TaskRecord :=
  { status := ApiServer.TaskStatus.disputed
    worker := some (addrHex40 'a')
    txHash := some (hashHex64 'b')
    completedAt := some 1700000000
    signature := some "0x1234"
    target := some (addrHex40 'c')
    key := some "13"
    value := some "123456" }

/-- A table holding only the disputed record at `(1, 1)`. -/
def dbDisputed : ApiServer.Db := Function.update emptyDb (1, 1) (some disputedRec)

/-- A well-formed completion claim for `(1, 1)`. -/
def completeBodySample : ApiServer.CompleteBody :=
  { chainId := 1
    agreementId := 1
    worker := addrHex40 'a'
    txHash := hashHex64 'b'
    completedAt := 1700000000
    signature := "0x1234"
    target := addrHex40 'c'
    key := "13"
    value := "123456" }

/-- C3 counterexample: a disputed record is NOT terminal across
`recordCompletion`. Posting a fresh well-formed claim for the disputed key
upserts the row back to `pending` (the SQL upsert overwrites `status`
unconditionally), after which a read that passes both verifications returns
`completed` — a status other than `disputed`. -/
theorem disputed_not_terminal_counterexample :
    (do
      let db1 ← ApiServer.recordCompletion dbDisputed completeBodySample
      let res ← ApiServer.readStatus db1 1 1 (fun _ _ _ => some true)
        (fun _ _ => some 123456)
      pure res.fst) = Except.ok ApiServer.TaskStatus.completed ∧
    ApiServer.TaskStatus.completed ≠ ApiServer.TaskStatus.disputed := by
  exact ⟨rfl, by decide⟩

/-- C3 (amended): a disputed record is terminal with respect to `readStatus`
(and `markDisputed`): as long as no `recordCompletion` intervenes,
`readStatus` returns `disputed` as-is, never re-evaluates it, and leaves the
table unchanged — so arbitrarily many reads keep yielding `disputed`.
`recordCompletion`, however, unconditionally resets the row to `pending`. -/
theorem disputed_terminal_for_readStatus (db : ApiServer.Db)
    (chainId agreementId : Nat)
    (verifySig : String → String → String → Option Bool)
    (readContract : String → Nat → Option Nat)
    (rec : ApiServer.TaskRecord)
    (hchain : chainId ≠ 0)
    (hdb : db (chainId, agreementId) = some rec)
    (hst : rec.status = ApiServer.TaskStatus.disputed) :
    ApiServer.readStatus db chainId agreementId verifySig readContract
      = Except.ok (ApiServer.TaskStatus.disputed, db) := by
  unfold ApiServer.readStatus
  rw [if_neg hchain, hdb]
  dsimp only
  rw [if_pos hst]

/-- Witness for the amended C3 theorem: reading the disputed record at
`(1, 1)` answers `disputed` and leaves the table untouched, even under
oracles that would verify the claim. -/
theorem disputed_terminal_for_readStatus_witness :
    ApiServer.readStatus dbDisputed 1 1 (fun _ _ _ => some true)
      (fun _ _ => some 123456)
      = Except.ok (ApiServer.TaskStatus.disputed, dbDisputed) :=
  disputed_terminal_for_readStatus dbDisputed 1 1 _ _ disputedRec
    (by decide) rfl rfl

/-- A disputed record lacking every required field, at key `(2, 2)`. -/
def disputedMissingRec : ApiServer.TaskRecord :=
  { status := ApiServer.TaskStatus.disputed
    worker := none
    txHash := none
    completedAt := none
    signature := none
    target := none
    key := none
    value := none }

/-- A table holding only the field-less disputed record at `(2, 2)`. -/
def dbDisputedMissing : ApiServer.Db :=
  Function.update emptyDb (2, 2) (some disputedMissingRec)

/-- C5 counterexample: a record lacking required fields is NOT always
reported `pending` — the disputed short-circuit comes first, so a disputed
record with no fields at all is returned `disputed`, contradicting
"pending regardless of the stored status flag". -/
theorem missing_fields_not_pending_counterexample :
    ApiServer.readStatus dbDisputedMissing 2 2 (fun _ _ _ => some true)
        (fun _ _ => some 0)
      = Except.ok (ApiServer.TaskStatus.disputed, dbDisputedMissing) ∧
    ApiServer.TaskStatus.disputed ≠ ApiServer.TaskStatus.pending := by
  exact ⟨rfl, by decide⟩

/-- C5 (amended): `readStatus` is fail-closed. No record → synthetic
`pending`; a disputed record is returned as-is before any other check (so
"pending regardless of the stored status flag" holds for the pending and
completed flags, not for disputed); a non-disputed record missing a required
field → `pending`; signature verification not succeeding (mismatch or
throw) → `pending`; on-chain verification not succeeding (mainnet check,
target shape, `BigInt` parse throw, RPC failure, or value mismatch) →
`pending`; only when both checks pass → `completed`, persisted back into the
table when the stored flag differs. -/
theorem readStatus_fail_closed (db : ApiServer.Db) (chainId agreementId : Nat)
    (verifySig : String → String → String → Option Bool)
    (readContract : String → Nat → Option Nat)
    (hchain : chainId ≠ 0) :
    (db (chainId, agreementId) = none →
      ApiServer.readStatus db chainId agreementId verifySig readContract
        = Except.ok (ApiServer.TaskStatus.pending, db)) ∧
    (∀ rec, db (chainId, agreementId) = some rec →
      (rec.status = ApiServer.TaskStatus.disputed →
        ApiServer.readStatus db chainId agreementId verifySig readContract
          = Except.ok (ApiServer.TaskStatus.disputed, db)) ∧
      (rec.status ≠ ApiServer.TaskStatus.disputed →
        ApiServer.hasRequiredFields rec = false →
        ApiServer.readStatus db chainId agreementId verifySig readContract
          = Except.ok (ApiServer.TaskStatus.pending, db)) ∧
      (rec.status ≠ ApiServer.TaskStatus.disputed →
        ApiServer.hasRequiredFields rec = true →
        verifySig (rec.worker.getD "")
            (ApiServer.buildCompletionMessage chainId agreementId
              (rec.target.getD "") (rec.key.getD "") (rec.value.getD "")
              (rec.txHash.getD "") (rec.completedAt.getD 0))
            (rec.signature.getD "") ≠ some true →
        ApiServer.readStatus db chainId agreementId verifySig readContract
          = Except.ok (ApiServer.TaskStatus.pending, db)) ∧
      (rec.status ≠ ApiServer.TaskStatus.disputed →
        ApiServer.hasRequiredFields rec = true →
        verifySig (rec.worker.getD "")
            (ApiServer.buildCompletionMessage chainId agreementId
              (rec.target.getD "") (rec.key.getD "") (rec.value.getD "")
              (rec.txHash.getD "") (rec.completedAt.getD 0))
            (rec.signature.getD "") = some true →
        ApiServer.verifySetConfigOnchain readContract chainId
            (rec.target.getD "") (rec.key.getD "") (rec.value.getD "")
          ≠ some true →
        ApiServer.readStatus db chainId agreementId verifySig readContract
          = Except.ok (ApiServer.TaskStatus.pending, db)) ∧
      (rec.status ≠ ApiServer.TaskStatus.disputed →
        ApiServer.hasRequiredFields rec = true →
        verifySig (rec.worker.getD "")
            (ApiServer.buildCompletionMessage chainId agreementId
              (rec.target.getD "") (rec.key.getD "") (rec.value.getD "")
              (rec.txHash.getD "") (rec.completedAt.getD 0))
            (rec.signature.getD "") = some true →
        ApiServer.verifySetConfigOnchain readContract chainId
            (rec.target.getD "") (rec.key.getD "") (rec.value.getD "")
          = some true →
        ApiServer.readStatus db chainId agreementId verifySig readContract
          = Except.ok (ApiServer.TaskStatus.completed,
              if rec.status ≠ ApiServer.TaskStatus.completed then
                Function.update db (chainId, agreementId)
                  (some { rec with status := ApiServer.TaskStatus.completed })
              else db))) := by
  constructor
  · intro h
    unfold ApiServer.readStatus
    rw [if_neg hchain, h]
  · intro rec hdb
    refine ⟨?_, ?_, ?_, ?_, ?_⟩
    · intro hst
      unfold ApiServer.readStatus
      rw [if_neg hchain, hdb]
      dsimp only
      rw [if_pos hst]
    · intro hst hreq
      unfold ApiServer.readStatus
      rw [if_neg hchain, hdb]
      dsimp only
      rw [if_neg hst, if_pos (by simp [hreq])]
    · intro hst hreq hsig
      unfold ApiServer.readStatus
      rw [if_neg hchain, hdb]
      dsimp only
      rw [if_neg hst, if_neg (not_not_intro hreq)]
      cases hv : verifySig (rec.worker.getD "")
          (ApiServer.buildCompletionMessage chainId agreementId
            (rec.target.getD "") (rec.key.getD "") (rec.value.getD "")
            (rec.txHash.getD "") (rec.completedAt.getD 0))
          (rec.signature.getD "") with
      | none => rfl
      | some b =>
        cases b with
        | false => rfl
        | true => exact absurd hv hsig
    · intro hst hreq hsig hchainv
      unfold ApiServer.readStatus
      rw [if_neg hchain, hdb]
      dsimp only
      rw [if_neg hst, if_neg (not_not_intro hreq), hsig]
      dsimp only
      cases hv : ApiServer.verifySetConfigOnchain readContract chainId
          (rec.target.getD "") (rec.key.getD "") (rec.value.getD "") with
      | none => rfl
      | some b =>
        cases b with
        | false => rfl
        | true => exact absurd hv hchainv
    · intro hst hreq hsig hchainv
      unfold ApiServer.readStatus
      rw [if_neg hchain, hdb]
      dsimp only
      rw [if_neg hst, if_neg (not_not_intro hreq), hsig]
      dsimp only
      rw [hchainv]

/-- A fully-populated pending record at `(1, 1)`. -/
def pendingFullRec : ApiServer.TaskRecord :=
  { status := ApiServer.TaskStatus.pending
    worker := some (addrHex40 'a')
    txHash := some (hashHex64 'b')
    completedAt := some 1700000000
    signature := some "0x1234"
    target := some (addrHex40 'c')
    key := some "13"
    value := some "123456" }

/-- A table holding only the full pending record at `(1, 1)`. -/
def dbPendingFull : ApiServer.Db :=
  Function.update emptyDb (1, 1) (some pendingFullRec)

/-- Witness for the fail-closed theorem: with a signature oracle that says
"no", the read of the fully-populated pending record stays `pending`. -/
theorem readStatus_fail_closed_witness :
    ApiServer.readStatus dbPendingFull 1 1 (fun _ _ _ => some false)
      (fun _ _ => some 0)
      = Except.ok (ApiServer.TaskStatus.pending, dbPendingFull) :=
  (((readStatus_fail_closed dbPendingFull 1 1 (fun _ _ _ => some false)
      (fun _ _ => some 0) (by decide)).2 pendingFullRec rfl).2.2.1)
    (by decide) (by decide) (by decide)
